import Mathlib

/-!
Verification of the go-cloudinary client library.

This file gives a shallow embedding, in Lean 4, of the core of the
go-cloudinary repository (request signing, asset naming, the change
tracker logic of `uploadFile`, admin pagination, delete / rename, and
bulk deletion), together with theorems settling the specification
claims about that code.

Strings are modelled as Lean `String`s; Go byte-level operations agree
with the character-level model on the ASCII inputs the library
manipulates (UTF-8 byte order coincides with code-point order, so
`sort.Strings` agrees as well).  Machine integers are modelled as `Nat`
with explicit reduction modulo 2^32 where Go overflow semantics matter
(inside SHA-1).  Ambient process state that the Go code reads (the
working directory used by `filepath.Abs`, the clock used for
`timestamp`, the filesystem, the HTTP transport and the mongo session)
is passed explicitly as environment parameters, and fallible or
panicking Go code is modelled with `Option` / explicit outcome types.
-/

namespace Cloudinary

/-! ### Go string primitives used by the library -/

/-- Whitespace recognised by Go `strings.TrimSpace` (ASCII part). -/
def isGoSpace (c : Char) : Bool :=
  c = ' ' || c = '\t' || c = '\n' || c = '\x0b' || c = '\x0c' || c = '\r'

/-- Model of Go `strings.TrimSpace`. -/
def goTrimSpace (s : String) : String :=
  ⟨((s.data.dropWhile isGoSpace).reverse.dropWhile isGoSpace).reverse⟩

/-- Splitting on a separator character (Go `strings.Split` for a
    one-character separator), written structurally on the characters. -/
def splitOnCharAux (sep : Char) : List Char → List Char → List String
  | [], acc => [⟨acc.reverse⟩]
  | c :: rest, acc =>
    if c = sep then (⟨acc.reverse⟩ : String) :: splitOnCharAux sep rest []
    else splitOnCharAux sep rest (c :: acc)

/-- Split a string on a separator character. -/
def splitOnChar (s : String) (sep : Char) : List String :=
  splitOnCharAux sep s.data []

/-- First index (if any) at which `needle` occurs inside `hay`,
    as used by Go `strings.Index` / `strings.Replace`. -/
def findSubstr : List Char → List Char → Option Nat
  | [], needle => if needle = [] then some 0 else none
  | c :: rest, needle =>
    if needle.isPrefixOf (c :: rest) then some 0
    else (findSubstr rest needle).map (· + 1)

/-- Model of Go `strings.Replace(s, old, new, 1)`. -/
def goReplaceFirst (s old new : String) : String :=
  match findSubstr s.data old.data with
  | none => s
  | some i => ⟨s.data.take i ++ new.data ++ s.data.drop (i + old.data.length)⟩

/-- Model of Go `strings.Replace(r, string(sep), "/", -1)` for a
    single-character pattern: a character-wise replacement. -/
def goReplaceAllChar (s : String) (oldc newc : Char) : String :=
  ⟨s.data.map (fun ch => if ch = oldc then newc else ch)⟩

/-- Model of Go `strings.TrimPrefix(s, "/")`: drop one leading slash. -/
def goTrimLeadingSlash (s : String) : String :=
  match s.data with
  | '/' :: rest => ⟨rest⟩
  | _ => s

/-- Model of Go `strings.LastIndex(s, "/")`: the last index of a slash,
    or `-1` when there is none. -/
def lastIndexSlash (s : String) : Int :=
  match s.data.reverse.findIdx? (· = '/') with
  | some j => (s.data.length : Int) - 1 - (j : Int)
  | none => -1

/-- Model of Go `path/filepath.Ext`: the suffix of the final path
    element starting at its final dot. The scan runs from the end of
    the string towards the last separator. -/
def extAux : List Char → List Char → List Char
  | [], _ => []
  | c :: rest, acc =>
    if c = '/' then []
    else if c = '.' then '.' :: acc
    else extAux rest (c :: acc)

/-- Go `filepath.Ext` on the string model. -/
def extOf (s : String) : String := ⟨extAux s.data.reverse []⟩

/-- The library helper `EnsureTrailingSlash` (`strings.HasSuffix` on a
    one-character suffix is a last-character test). -/
def ensureTrailingSlash (dirname : String) : String :=
  if dirname.data.getLast? = some '/' then dirname else dirname ++ "/"

/-- Go `filepath.IsAbs` on unix: the path begins with a separator. -/
def isAbs (s : String) : Bool := s.data.head? = some '/'

/-- Model of Go `path.Clean` (unix separators), implemented by segment
    processing: drop empty and dot segments, resolve dot-dot segments
    against the stack, and keep unresolvable dot-dots of relative
    paths. -/
def cleanPathSegs (rooted : Bool) (segs : List String) : List String :=
  segs.foldl
    (fun acc seg =>
      if seg = "." then acc
      else if seg = ".." then
        if rooted then acc.dropLast
        else if acc ≠ [] && acc.getLast? ≠ some ".." then acc.dropLast
        else acc ++ [".."]
      else acc ++ [seg]) []

/-- Go `filepath.Clean` for unix paths. -/
def cleanPath (p : String) : String :=
  if p = "" then "."
  else
    let rooted := isAbs p
    let out := cleanPathSegs rooted ((splitOnChar p '/').filter (· ≠ ""))
    if rooted then "/" ++ String.intercalate "/" out
    else if out = [] then "." else String.intercalate "/" out

/-- Model of Go `filepath.Abs` with the working directory `wd` passed
    explicitly: absolute paths are cleaned, relative paths (including
    the empty path) are joined onto the working directory. -/
def filepathAbs (wd p : String) : String :=
  if isAbs p then cleanPath p else cleanPath (wd ++ "/" ++ p)

/-! ### SHA-1 (as used through Go crypto/sha1) -/

/-- UTF-8 bytes of one character (Go strings are UTF-8 encoded). -/
def charUtf8 (c : Char) : List Nat :=
  let n := c.toNat
  if n < 128 then [n]
  else if n < 2048 then [192 + n / 64, 128 + n % 64]
  else if n < 65536 then [224 + n / 4096, 128 + (n / 64) % 64, 128 + n % 64]
  else [240 + n / 262144, 128 + (n / 4096) % 64, 128 + (n / 64) % 64, 128 + n % 64]

/-- Bytes of a string, UTF-8 encoded. -/
def strBytes (s : String) : List Nat := (s.data.map charUtf8).flatten

/-- Rotate a 32-bit word left by `n` bits. -/
def rotl32 (x n : Nat) : Nat :=
  ((x <<< n) ||| (x >>> (32 - n))) % 4294967296

/-- Big-endian byte writing of `x` on `n` bytes. -/
def beBytes (n x : Nat) : List Nat :=
  (List.range n).map (fun i => (x >>> (8 * (n - 1 - i))) % 256)

/-- SHA-1 padding: append 0x80, zero bytes, and the 64-bit big-endian
    bit length, up to a multiple of 64 bytes. -/
def sha1Pad (msg : List Nat) : List Nat :=
  let len := msg.length
  let padZeros := (119 - len % 64) % 64
  msg ++ [128] ++ List.replicate padZeros 0 ++ beBytes 8 (len * 8)

/-- Split a byte list into 64-byte blocks. -/
def chunks64 (l : List Nat) : List (List Nat) :=
  if h : l = [] then []
  else l.take 64 :: chunks64 (l.drop 64)
termination_by l.length
decreasing_by
  simp only [List.length_drop]
  have hl : 0 < l.length := List.length_pos.mpr h
  omega

/-- The sixteen initial 32-bit words of a 64-byte block, big endian. -/
def sha1Words (block : List Nat) : List Nat :=
  (List.range 16).map (fun i =>
    block.getD (4 * i) 0 * 16777216 + block.getD (4 * i + 1) 0 * 65536 +
    block.getD (4 * i + 2) 0 * 256 + block.getD (4 * i + 3) 0)

/-- The 80-word SHA-1 message schedule. -/
def sha1Schedule (block : List Nat) : List Nat :=
  (List.range 64).foldl
    (fun w i =>
      w ++ [rotl32 ((w.getD (i + 13) 0 ^^^ w.getD (i + 8) 0) ^^^
                    (w.getD (i + 2) 0 ^^^ w.getD i 0)) 1])
    (sha1Words block)

/-- One SHA-1 round on the five-word state. -/
def sha1Round (st : Nat × Nat × Nat × Nat × Nat) (iw : Nat × Nat) :
    Nat × Nat × Nat × Nat × Nat :=
  let (a, b, c, d, e) := st
  let (i, wi) := iw
  let f :=
    if i < 20 then (b &&& c) ||| ((b ^^^ 4294967295) &&& d)
    else if i < 40 then (b ^^^ c) ^^^ d
    else if i < 60 then (b &&& c) ||| (b &&& d) ||| (c &&& d)
    else (b ^^^ c) ^^^ d
  let k :=
    if i < 20 then 1518500249
    else if i < 40 then 1859775393
    else if i < 60 then 2400959708
    else 3395469782
  let temp := (rotl32 a 5 + f + e + k + wi) % 4294967296
  (temp, a, rotl32 b 30, c, d)

/-- Process one 64-byte block. -/
def sha1Block (h : Nat × Nat × Nat × Nat × Nat) (block : List Nat) :
    Nat × Nat × Nat × Nat × Nat :=
  let (h0, h1, h2, h3, h4) := h
  let w := sha1Schedule block
  let (a, b, c, d, e) :=
    (((List.range 80).zip w).foldl sha1Round (h0, h1, h2, h3, h4))
  ((h0 + a) % 4294967296, (h1 + b) % 4294967296, (h2 + c) % 4294967296,
   (h3 + d) % 4294967296, (h4 + e) % 4294967296)

/-- SHA-1 digest of a byte list, as twenty bytes. -/
def sha1 (msg : List Nat) : List Nat :=
  let (h0, h1, h2, h3, h4) :=
    (chunks64 (sha1Pad msg)).foldl sha1Block
      (1732584193, 4023233417, 2562383102, 271733878, 3285377520)
  beBytes 4 h0 ++ beBytes 4 h1 ++ beBytes 4 h2 ++ beBytes 4 h3 ++ beBytes 4 h4

/-- The lowercase hexadecimal digit character of a value below 16,
    written by its character code (48 is the code of the zero digit,
    87 + 10 the code of the letter a). -/
def hexDigitChar (n : Nat) : Char :=
  if n < 10 then Char.ofNat (48 + n) else Char.ofNat (87 + n)

/-- Two lowercase hex characters of one byte. -/
def byteHex (b : Nat) : List Char :=
  [hexDigitChar (b / 16 % 16), hexDigitChar (b % 16)]

/-- Lowercase hex SHA-1 digest of a byte list (Go `fmt.Sprintf("%x", ...)`). -/
def sha1hexBytes (msg : List Nat) : String := ⟨((sha1 msg).map byteHex).flatten⟩

/-- Lowercase hex SHA-1 digest of a string, the form the library uses. -/
def sha1hex (s : String) : String := sha1hexBytes (strBytes s)

/-! ### Asset Namer: `cleanAssetName` (service.go)

The Go function reads the process working directory through
`filepath.Abs`; the model takes that directory as the explicit first
argument `wd`.  `filepath.Abs` only fails when the working directory
cannot be read, so the model keeps the success path (the `err != nil`
fallback `basePath = ""` is unreachable).  The result is an `Option`:
`none` models the `name[0]` index-out-of-range panic on an empty
`name`. -/

/-- Normalisation of the prepend path inside `cleanAssetName`: strip a
    leading separator, then ensure a trailing slash (empty prepend
    stays empty). -/
def normalizePP (prependPath : String) : String :=
  if prependPath ≠ "" then
    let pp := if isAbs prependPath then (⟨prependPath.data.tail⟩ : String) else prependPath
    ensureTrailingSlash pp
  else prependPath

/-- The slice `name[:len(name)-len(filepath.Ext(name))]`. -/
def stripExtStr (name : String) : String :=
  ⟨name.data.take (name.data.length - (extOf name).data.length)⟩

/-- Model of `cleanAssetName(path, basePath, prependPath)` with the
    working directory `wd` explicit; `none` is the `name[0]` panic. -/
def cleanAssetName (wd path basePath prependPath : String) : Option String :=
  let path1 := goTrimSpace path
  let basePath1 := goTrimSpace basePath
  let prependPath1 := goTrimSpace prependPath
  let basePath2 := filepathAbs wd basePath1
  let path2 := filepathAbs wd path1
  let nameOpt : Option String :=
    if basePath2 = "" then
      let idx := lastIndexSlash path2
      let idx2 := if idx ≠ -1 then lastIndexSlash ⟨path2.data.take idx.toNat⟩ else idx
      some ⟨path2.data.drop (idx2 + 1).toNat⟩
    else
      let name := goReplaceFirst path2 basePath2 ""
      match name.data with
      | [] => none
      | c :: rest => some (if c = '/' then (⟨rest⟩ : String) else name)
  match nameOpt with
  | none => none
  | some name =>
    some (goReplaceAllChar (normalizePP prependPath1 ++ stripExtStr name) '/' '/')

/-- Spec-modelled counterpart of the Asset Namer contract for an empty
    base path, following the specification words only: take the last
    two path segments of the (absolute) path, strip the file extension,
    and prefix the normalized prepend path. -/
def specLastTwoSegmentsName (path prependPath : String) : String :=
  let segs := (splitOnChar path '/').filter (· ≠ "")
  let lastTwo := segs.drop (segs.length - 2)
  normalizePP (goTrimSpace prependPath) ++ stripExtStr (String.intercalate "/" lastTwo)

/-! ### Request Signer: `Service.signature` (unnamed variant)

The Go method inserts `api_key` into the option map, iterates the keys
in sorted order writing every field to the multipart body, collects
`key=value` strings for every key other than `api_key`, joins them with
ampersands, appends the raw secret, and hex-SHA-1 hashes the result. -/

/-- Go map assignment `m[k] = v` on an association-list model: replace
    the binding if the key is present, otherwise add it. -/
def upsert (m : List (String × String)) (k v : String) : List (String × String) :=
  match m with
  | [] => [(k, v)]
  | (k', v') :: rest => if k' = k then (k, v) :: rest else (k', v') :: upsert rest k v

/-- Go map read `m[k]` (zero value for a missing key). -/
def lookupD : List (String × String) → String → String
  | [], _ => ""
  | (k', v) :: rest, k => if k' = k then v else lookupD rest k

/-- The helper `sortedKeys`: the keys of the map, sorted ascending
    (Go `sort.Strings`). -/
def sortStrings (l : List String) : List String :=
  List.insertionSort (· ≤ ·) l

/-- The loop body of `Service.signature` collecting the signed
    `key=value` strings, skipping `api_key`. -/
def signedValues (options : List (String × String)) : List String → List String
  | [] => []
  | k :: rest =>
    if k = "api_key" then signedValues options rest
    else (k ++ "=" ++ lookupD options k) :: signedValues options rest

/-- Model of `Service.signature(w, options)`: the returned hex digest
    together with the form fields written to the multipart writer. -/
def signature (apiKey apiSecret : String) (options : List (String × String)) :
    String × List (String × String) :=
  let options1 := upsert options "api_key" apiKey
  let keys := sortStrings (options1.map (·.1))
  let written := keys.map (fun k => (k, lookupD options1 k))
  let part := String.intercalate "&" (signedValues options1 keys) ++ apiSecret
  let sig := sha1hex part
  (sig, written ++ [("signature", sig)])

/-- Spec-modelled canonical signed string, following the specification
    words only: `key=value` pairs of all fields except `api_key`, keys
    sorted lexicographically ascending, joined by ampersands, with the
    raw secret appended directly at the end. -/
def specSignedString (fields : List (String × String)) (secret : String) : String :=
  String.intercalate "&"
    (((sortStrings ((fields.map (·.1)).filter (· ≠ "api_key"))).map
      (fun k => k ++ "=" ++ lookupD fields k))) ++ secret

/-! ### Data model (service.go) -/

/-- Constants of service.go. -/
def baseUploadUrl : String := "https://api.cloudinary.com/v1_1"

/-- Constant `imageType`. -/
def imageType : String := "image"

/-- Constant `videoType`. -/
def videoType : String := "video"

/-- Constant `pdfType` (service.go sets it to the string "image"). -/
def pdfType : String := "image"

/-- Constant `rawType`. -/
def rawType : String := "raw"

/-- The `ResourceType` enumeration of service.go. -/
inductive ResourceType where
  | ImageType
  | PdfType
  | VideoType
  | RawType
deriving DecidableEq, Repr

/-- The URL path segment each resource type selects (the mapping used
    by `Service.Url` and, through `strings.Replace` on the upload URI,
    by `Service.uploadFile`). -/
def resourceTypePathSegment : ResourceType → String
  | .ImageType => imageType
  | .PdfType => pdfType
  | .VideoType => videoType
  | .RawType => rawType

/-- The upload URI after the resource-type substitution performed at
    the end of `Service.uploadFile` (`strings.Replace(upURI, imageType,
    X, 1)`). -/
def uploadURIFor (upURI : String) (t : ResourceType) : String :=
  if t = .PdfType then goReplaceFirst upURI imageType pdfType
  else if t = .VideoType then goReplaceFirst upURI imageType videoType
  else if t = .RawType then goReplaceFirst upURI imageType rawType
  else upURI

/-- The `Service` state (service.go); the mongo session is reduced to
    the fact that it is configured, and the compiled keep-files regexp
    to its matching function. -/
structure Service where
  cloudName : String
  apiKey : String
  apiSecret : String
  uploadURI : String
  uploadResType : ResourceType
  basePathDir : String
  prependPath : String
  verbose : Bool
  simulate : Bool
  keepFilesPattern : Option (String → Bool)
  dbConfigured : Bool

/-- A listed resource (the fields of `Resource` the claims use). -/
structure Resource where
  publicId : String
  version : Int
  resourceType : String
  size : Int
  url : String
  secureUrl : String
deriving DecidableEq, Repr

/-- A change-tracker record (the `uploadResponse` document stored in
    mongo, keyed by `_id`). -/
structure UploadRecord where
  id : String
  publicId : String
  version : Nat
  format : String
  resourceType : String
  size : Int
  checksum : String
deriving DecidableEq, Repr

/-- Result of a modelled Go call: success, an error return, or a
    runtime panic. -/
inductive GoOutcome (α : Type) where
  | ok : α → GoOutcome α
  | error : String → GoOutcome α
  | crash : GoOutcome α
deriving DecidableEq, Repr

/-- An HTTP request issued by the client: target URL and the form or
    multipart fields it carries (file content abstracted away). -/
structure HttpRequest where
  url : String
  fields : List (String × String)
deriving DecidableEq, Repr

/-! ### Change-tracker store operations (mgo collection on `_id`) -/

/-- `col.Update(bson.M{"_id": k}, doc)`: replace the first document
    whose id is `k`; `none` models mgo `ErrNotFound`. -/
def storeUpdate (store : List UploadRecord) (k : String) (doc : UploadRecord) :
    Option (List UploadRecord) :=
  match store with
  | [] => none
  | r :: rest =>
    if r.id == k then some (doc :: rest)
    else (storeUpdate rest k doc).map (r :: ·)

/-- `col.Insert(doc)`: append; `none` models the duplicate-key error on
    the primary key `_id`. -/
def storeInsert (store : List UploadRecord) (doc : UploadRecord) :
    Option (List UploadRecord) :=
  if store.any (fun r => r.id == doc.id) then none else some (store ++ [doc])

/-- `col.Remove(bson.M{"_id": k})`: drop the first document whose id is
    `k`; `none` models mgo `ErrNotFound`. -/
def storeRemove (store : List UploadRecord) (k : String) :
    Option (List UploadRecord) :=
  match store with
  | [] => none
  | r :: rest =>
    if r.id == k then some rest
    else (storeRemove rest k).map (r :: ·)

/-! ### Upload Orchestrator: `Service.uploadFile` (service.go) -/

/-- Decoded JSON body of a successful upload response. -/
structure UploadResp where
  status : Nat
  decodeOk : Bool
  publicId : String
  version : Nat
  format : String
  resourceType : String
  size : Int
deriving DecidableEq, Repr

/-- Ambient state read by `uploadFile`: working directory, clock,
    `os.Stat` result, `fileChecksum` result, whether reading the data
    reader or opening and copying the file succeeds, and the HTTP
    exchange (`none` is a transport error). -/
structure UploadEnv where
  wd : String
  timestamp : String
  statSize : Option Int
  fileChk : Option String
  dataOk : Bool
  openOk : Bool
  httpResult : Option UploadResp

/-- What a call to `uploadFile` produced: its return value, the HTTP
    requests it issued, and the change-tracker store afterwards. -/
structure UploadOutcome where
  result : GoOutcome String
  requests : List HttpRequest
  store : List UploadRecord
deriving DecidableEq, Repr

/-- Outcome of the leading change-tracker check of `uploadFile`: either
    an early return or the `changedLocally` flag to continue with. -/
inductive TrackerStep where
  | early : UploadOutcome → TrackerStep
  | proceed : Bool → TrackerStep

/-- The tracker phase of `uploadFile`: look the public id (with and
    without extension) up in the collection and compare checksums. -/
def uploadCheckTracker (s : Service) (env : UploadEnv) (store : List UploadRecord)
    (fullPath : String) : TrackerStep :=
  if s.dbConfigured then
    match cleanAssetName env.wd fullPath s.basePathDir s.prependPath with
    | none => .early ⟨.crash, [], store⟩
    | some publicId =>
      let ext := extOf fullPath
      match store.find? (fun r => r.id == publicId || r.id == publicId ++ ext) with
      | some m =>
        match env.fileChk with
        | none => .early ⟨.error "checksum read", [], store⟩
        | some chk =>
          if chk = m.checksum then .early ⟨.ok fullPath, [], store⟩
          else .proceed true
      | none => .proceed false
  else .proceed false

/-- The string hashed for the upload signature: `public_id=...&` (when
    a public id is sent) then `timestamp=...` then the raw secret. -/
def uploadSignedPart (s : Service) (env : UploadEnv) (pidMaybe : Option String) :
    String :=
  match pidMaybe with
  | some pid => "public_id=" ++ pid ++ "&" ++ ("timestamp=" ++ env.timestamp ++ s.apiSecret)
  | none => "timestamp=" ++ env.timestamp ++ s.apiSecret

/-- The multipart fields written by `uploadFile` (file content aside):
    optional public id, api key, timestamp, signature. -/
def uploadFields (s : Service) (env : UploadEnv) (pidMaybe : Option String) :
    List (String × String) :=
  (match pidMaybe with
   | some pid => [("public_id", pid)]
   | none => []) ++
  [("api_key", s.apiKey), ("timestamp", env.timestamp),
   ("signature", sha1hex (uploadSignedPart s env pidMaybe))]

/-- The remainder of `uploadFile`: build the multipart body (public id,
    api key, timestamp, signature, file), honour dry-run, send, and on
    a 200 response reconcile the change tracker (update when the file
    had changed locally, insert otherwise). -/
def uploadSend (s : Service) (env : UploadEnv) (store : List UploadRecord)
    (fullPath : String) (dataGiven randomPublicId changedLocally : Bool) :
    UploadOutcome :=
  let pidOpt : Option (Option String) :=
    if randomPublicId then some none
    else (cleanAssetName env.wd fullPath s.basePathDir s.prependPath).map some
  match pidOpt with
  | none => ⟨.crash, [], store⟩
  | some pidMaybe =>
    let fields := uploadFields s env pidMaybe
    if dataGiven && !env.dataOk then ⟨.error "read data", [], store⟩
    else if !dataGiven && !env.openOk then ⟨.error "open file", [], store⟩
    else if s.simulate then ⟨.ok fullPath, [], store⟩
    else
      let req : HttpRequest := ⟨uploadURIFor s.uploadURI s.uploadResType, fields⟩
      match env.httpResult with
      | none => ⟨.error "transport", [req], store⟩
      | some resp =>
        if resp.status = 200 then
          if !resp.decodeOk then ⟨.error "decode", [req], store⟩
          else if s.dbConfigured then
            match env.fileChk with
            | none => ⟨.error "checksum read", [req], store⟩
            | some chk =>
              let upInfo : UploadRecord :=
                ⟨resp.publicId, resp.publicId, resp.version, resp.format,
                 resp.resourceType, resp.size, chk⟩
              if changedLocally then
                match storeUpdate store resp.publicId upInfo with
                | some store1 => ⟨.ok resp.publicId, [req], store1⟩
                | none => ⟨.error "update", [req], store⟩
              else
                match storeInsert store upInfo with
                | some store1 => ⟨.ok resp.publicId, [req], store1⟩
                | none => ⟨.error "insert", [req], store⟩
          else ⟨.ok resp.publicId, [req], store⟩
        else ⟨.error "Request error", [req], store⟩

/-- Model of `Service.uploadFile(fullPath, data, randomPublicId)`:
    zero-byte files short-circuit, then the tracker phase, then the
    build-and-send phase. -/
def uploadFile (s : Service) (env : UploadEnv) (store : List UploadRecord)
    (fullPath : String) (dataGiven randomPublicId : Bool) : UploadOutcome :=
  if env.statSize = some 0 then ⟨.ok fullPath, [], store⟩
  else
    match uploadCheckTracker s env store fullPath with
    | .early o => o
    | .proceed changedLocally =>
      uploadSend s env store fullPath dataGiven randomPublicId changedLocally

/-! ### `Service.Delete` (service.go) -/

/-- Decoded response seen by `handleHttpResponse`. -/
structure HandleResp where
  status : Nat
  decodeOk : Bool
  errorMsg : Option String
deriving DecidableEq, Repr

/-- Ambient state read by `Delete`. -/
structure DeleteEnv where
  timestamp : String
  httpResult : Option HandleResp

/-- What a call to `Delete` produced. -/
structure DeleteOutcome where
  result : GoOutcome Unit
  requests : List HttpRequest
  store : List UploadRecord
deriving DecidableEq, Repr

/-- Model of `Service.Delete(publicId, prepend, rtype)`. -/
def Delete (s : Service) (env : DeleteEnv) (store : List UploadRecord)
    (publicId prepend : String) (rtype : ResourceType) : DeleteOutcome :=
  let ts := env.timestamp
  let data := [("api_key", s.apiKey), ("public_id", prepend ++ publicId),
               ("timestamp", ts)]
  if (match s.keepFilesPattern with
      | some patt => patt (prepend ++ publicId)
      | none => false) then ⟨.ok (), [], store⟩
  else if s.simulate then ⟨.ok (), [], store⟩
  else
    let part := "public_id=" ++ (prepend ++ publicId) ++ "&timestamp=" ++ ts ++
                s.apiSecret
    let sig := sha1hex part
    let data1 := data ++ [("signature", sig)]
    let rt := if rtype = .RawType then rawType else imageType
    let req : HttpRequest :=
      ⟨baseUploadUrl ++ "/" ++ s.cloudName ++ "/" ++ rt ++ "/destroy/", data1⟩
    match env.httpResult with
    | none => ⟨.error "transport", [req], store⟩
    | some resp =>
      if !resp.decodeOk then ⟨.error "decode", [req], store⟩
      else if resp.status ≠ 200 then
        ⟨.error (resp.errorMsg.getD "status"), [req], store⟩
      else if s.dbConfigured then
        match storeRemove store (prepend ++ publicId) with
        | some store1 => ⟨.ok (), [req], store1⟩
        | none => ⟨.error "cannot remove entry from DB", [req], store⟩
      else ⟨.ok (), [req], store⟩

/-! ### `Service.Rename` (service.go) -/

/-- Ambient state read by `Rename`. -/
structure RenameEnv where
  timestamp : String
  httpResult : Option HandleResp

/-- What a call to `Rename` produced; `signedPart` is the exact string
    fed to SHA-1 when computing the signature. -/
structure RenameOutcome where
  result : GoOutcome Unit
  requests : List HttpRequest
  signedPart : String
deriving DecidableEq, Repr

/-- Model of `Service.Rename(publicID, toPublicID, prepend, rtype)`.
    Note the signed string uses the bare `toPublicID` while the form
    field `to_public_id` carries `prepend ++ toPublicID`, and that no
    dry-run check occurs. -/
def Rename (s : Service) (env : RenameEnv) (publicID toPublicID prepend : String)
    (rtype : ResourceType) : RenameOutcome :=
  let publicID1 := goTrimLeadingSlash publicID
  let toPublicID1 := goTrimLeadingSlash toPublicID
  let ts := env.timestamp
  let data := [("api_key", s.apiKey), ("from_public_id", prepend ++ publicID1),
               ("timestamp", ts), ("to_public_id", prepend ++ toPublicID1)]
  let part := "from_public_id=" ++ (prepend ++ publicID1) ++ "&timestamp=" ++ ts ++
              "&to_public_id=" ++ toPublicID1 ++ s.apiSecret
  let sig := sha1hex part
  let data1 := data ++ [("signature", sig)]
  let rt := if rtype = .RawType then rawType else imageType
  let req : HttpRequest :=
    ⟨baseUploadUrl ++ "/" ++ s.cloudName ++ "/" ++ rt ++ "/rename", data1⟩
  match env.httpResult with
  | none => ⟨.error "transport", [req], part⟩
  | some resp =>
    if resp.status ≠ 200 then ⟨.error (resp.errorMsg.getD "body"), [req], part⟩
    else ⟨.ok (), [req], part⟩

/-! ### Go struct tags and encoding/json field matching

The `pagination` and `resourceList` structs of service.go carry the
struct tags `json: "next_cursor"` and `json: "resources"` — note the
space after the colon.  `reflect.StructTag.Get` requires the
conventional `key:"value"` format with no space, so these tags are not
found, the fields keep their Go names, and `encoding/json` matches
incoming keys against those names (exactly, or ASCII
case-insensitively).  The definitions below model that pipeline. -/

/-- Characters accepted in a struct-tag key by `reflect.StructTag`:
    above space, and none of colon, quote, DEL. -/
def tagKeyChar (c : Char) : Bool :=
  32 < c.toNat && c ≠ ':' && c ≠ '"' && c.toNat ≠ 127

/-- Scan of a quoted tag value: consume up to the closing quote,
    stepping over backslash escapes, returning the raw content and the
    rest of the tag. -/
def scanQuoted : List Char → List Char → Option (List Char × List Char)
  | [], _ => none
  | '"' :: rest, acc => some (acc.reverse, rest)
  | '\\' :: c :: rest, acc => scanQuoted rest (c :: '\\' :: acc)
  | c :: rest, acc => scanQuoted rest (c :: acc)

/-- One pass of the `reflect.StructTag.Lookup` loop, with fuel for
    termination (each pass consumes at least one character). -/
def tagLookupLoop (fuel : Nat) (tag key : List Char) : Option (List Char) :=
  match fuel with
  | 0 => none
  | fuel + 1 =>
    let tag1 := tag.dropWhile (· = ' ')
    if tag1 = [] then none
    else
      let nameLen := (tag1.takeWhile tagKeyChar).length
      if nameLen = 0 then none
      else
        match tag1.drop nameLen with
        | ':' :: '"' :: afterQuote =>
          match scanQuoted afterQuote [] with
          | none => none
          | some (value, rest) =>
            if tag1.take nameLen = key then some value
            else tagLookupLoop fuel rest key
        | _ => none

/-- `reflect.StructTag.Get(tag, key)` as an `Option`. -/
def structTagLookup (tag key : String) : Option String :=
  (tagLookupLoop (tag.data.length + 1) tag.data key.data).map (⟨·⟩)

/-- The JSON key `encoding/json` uses for a struct field: the first
    comma component of the `json` tag when present and non-empty, the
    field name otherwise. -/
def goJsonFieldName (fieldName tag : String) : String :=
  match structTagLookup tag "json" with
  | none => fieldName
  | some v =>
    let base := (splitOnChar v ',').headD ""
    if base = "" then fieldName else base

/-- ASCII lowering of one character. -/
def asciiFoldChar (c : Char) : Char :=
  if 'A' ≤ c && c ≤ 'Z' then Char.ofNat (c.toNat + 32) else c

/-- ASCII case-insensitive string equality (`encoding/json` fallback
    field matching). -/
def asciiEqualFold (a b : String) : Bool :=
  a.data.map asciiFoldChar == b.data.map asciiFoldChar

/-- Whether an incoming JSON object key selects a struct field with the
    given effective name: exact match, else case-insensitive match. -/
def jsonKeyMatch (jsonKey fieldEffective : String) : Bool :=
  jsonKey == fieldEffective || asciiEqualFold jsonKey fieldEffective

/-- The effective JSON key of `pagination.NextCursor`, whose struct tag
    in service.go is the malformed `json: "next_cursor"`. -/
def nextCursorEffectiveName : String := goJsonFieldName "NextCursor" "json: \"next_cursor\""

/-- The effective JSON key of `resourceList.Resources`, whose struct
    tag in service.go is the malformed `json: "resources"`. -/
def resourcesEffectiveName : String := goJsonFieldName "Resources" "json: \"resources\""

/-! ### Admin Operations: `Service.doGetResources` (admin.go) -/

/-- One JSON listing response as sent by the service: its `resources`
    array and its `next_cursor` value when present. -/
structure RawListPage where
  resources : List Resource
  nextCursor : Option Int
deriving DecidableEq, Repr

/-- The `resourceList` struct after `json.Decoder.Decode`: each struct
    field is populated only when the incoming key matches its effective
    name, and `NextCursor` keeps its zero value otherwise. -/
structure DecodedList where
  nextCursor : Int
  resources : List Resource
deriving DecidableEq, Repr

/-- Decoding of one listing response into `resourceList`. -/
def decodeResourceList (p : RawListPage) : DecodedList :=
  { nextCursor :=
      match p.nextCursor with
      | some n => if jsonKeyMatch "next_cursor" nextCursorEffectiveName then n else 0
      | none => 0
    resources :=
      if jsonKeyMatch "resources" resourcesEffectiveName then p.resources else [] }

/-- Model of the `doGetResources` loop over the successive listing
    responses: accumulate the decoded resources and continue while the
    decoded cursor is positive.  Returns the accumulated resources and
    the number of GET requests issued. -/
def doGetResources (pages : List RawListPage) : List Resource × Nat :=
  match pages with
  | [] => ([], 0)
  | p :: rest =>
    let rs := decodeResourceList p
    let more := if rs.nextCursor > 0 then doGetResources rest else ([], 0)
    (rs.resources ++ more.1, 1 + more.2)

/-! ### Admin Operations: `Service.dropAllResources` (admin.go) -/

/-- What a call to `dropAllResources` produced: the result, the public
    ids for which `Delete` was invoked, and the lines written to the
    sink. -/
structure DropOutcome where
  result : GoOutcome Unit
  attempted : List String
  sink : List String
deriving DecidableEq, Repr

/-- One page of the bulk-deletion listing after `handleHttpResponse`:
    the public ids and the `next_cursor` entry of the generic map. -/
structure DropPage where
  resources : List String
  nextCursor : Option String
deriving DecidableEq, Repr

/-- The inner deletion loop of `dropAllResources` over one page.  With
    a sink, a failing `Delete` is written to it and the loop continues;
    without one, the error report calls `fmt.Fprintf` on a nil writer,
    which panics (third component `false`). -/
def dropItems (items : List String) (hasSink : Bool)
    (deleteErr : String → Option String) : List String × List String × Bool :=
  match items with
  | [] => ([], [], true)
  | pid :: rest =>
    let msgs := if hasSink then ["Deleting " ++ pid ++ " ... "] else []
    match deleteErr pid with
    | some msg =>
      if hasSink then
        let out := dropItems rest hasSink deleteErr
        (pid :: out.1, msgs ++ ["Error: " ++ pid ++ ": " ++ msg] ++ out.2.1, out.2.2)
      else (pid :: [], msgs, false)
    | none =>
      let out := dropItems rest hasSink deleteErr
      (pid :: out.1, msgs ++ out.2.1, out.2.2)

/-- Model of `Service.dropAllResources`: each loop iteration takes the
    next listing response (`Except.error` is a `handleHttpResponse`
    failure, which returns), deletes every listed resource, and
    continues while `next_cursor` is present in the response map. -/
def dropAllResources (pages : List (Except String DropPage)) (hasSink : Bool)
    (deleteErr : String → Option String) : DropOutcome :=
  match pages with
  | [] => ⟨.error "nil http response", [], []⟩
  | .error e :: _ => ⟨.error e, [], []⟩
  | .ok page :: rest =>
    let out := dropItems page.resources hasSink deleteErr
    if !out.2.2 then ⟨.crash, out.1, out.2.1⟩
    else
      match page.nextCursor with
      | some _ =>
        let next := dropAllResources rest hasSink deleteErr
        ⟨next.result, out.1 ++ next.attempted, out.2.1 ++ next.sink⟩
      | none => ⟨.ok (), out.1, out.2.1⟩

/-! ### Supporting lemmas -/

/-- The signed-value loop is the filtered, mapped key list. -/
theorem signedValues_eq (options : List (String × String)) (keys : List String) :
    signedValues options keys =
      (keys.filter (· ≠ "api_key")).map (fun k => k ++ "=" ++ lookupD options k) := by
  induction keys with
  | nil => rfl
  | cons k rest ih =>
    by_cases h : k = "api_key" <;> simp [signedValues, h, ih]

/-- Sorting then filtering sorts the filtered list. -/
theorem sortStrings_filter (l : List String) (p : String → Bool) :
    (sortStrings l).filter p = sortStrings (l.filter p) := by
  have hperm : List.Perm ((sortStrings l).filter p) (sortStrings (l.filter p)) :=
    ((List.perm_insertionSort _ l).filter p).trans
      (List.perm_insertionSort _ (l.filter p)).symm
  exact @List.eq_of_perm_of_sorted String (· ≤ ·) _ _ _ hperm
    ((List.sorted_insertionSort _ l).filter p)
    (List.sorted_insertionSort _ _)

/-- Reading back the key just assigned into a Go map. -/
theorem lookupD_upsert (m : List (String × String)) (k v : String) :
    lookupD (upsert m k v) k = v := by
  induction m with
  | nil => simp [upsert, lookupD]
  | cons p rest ih =>
    by_cases h : p.1 = k <;> simp [upsert, h, lookupD, ih]

/-- The assigned key is among the keys of a Go map. -/
theorem mem_keys_upsert (m : List (String × String)) (k v : String) :
    k ∈ (upsert m k v).map (·.1) := by
  induction m with
  | nil => simp [upsert]
  | cons p rest ih =>
    by_cases h : p.1 = k <;> simp [upsert, h, ih]

/-- A string with empty character list is the empty string. -/
theorem str_eq_empty_of_data_nil (s : String) (h : s.data = []) : s = "" := by
  cases s with
  | mk d => cases h; rfl

/-- Appending preserves a leading separator. -/
theorem isAbs_append (a b : String) (h : isAbs a = true) : isAbs (a ++ b) = true := by
  unfold isAbs at h ⊢
  rw [String.data_append]
  cases hd : a.data with
  | nil => rw [hd] at h; simp at h
  | cons c rest =>
    rw [hd] at h
    simp_all

/-- Cleaning a rooted path never yields the empty string. -/
theorem cleanPath_rooted_ne_empty (p : String) (h : isAbs p = true) :
    cleanPath p ≠ "" := by
  have hp : p ≠ "" := by
    intro he
    subst he
    rw [show isAbs "" = false from rfl] at h
    cases h
  unfold cleanPath
  rw [if_neg hp]
  simp only [h, if_true]
  intro he
  have hd := congrArg String.data he
  rw [String.data_append] at hd
  simp at hd

/-- `filepath.Abs` ignores the working directory on absolute paths. -/
theorem filepathAbs_rooted (wd p : String) (h : isAbs p = true) :
    filepathAbs wd p = cleanPath p := by
  unfold filepathAbs
  rw [if_pos h]

/-- With an absolute working directory, `filepath.Abs` never yields the
    empty string. -/
theorem filepathAbs_ne_empty (wd p : String) (hwd : isAbs wd = true) :
    filepathAbs wd p ≠ "" := by
  unfold filepathAbs
  by_cases h : isAbs p = true
  · rw [if_pos h]
    exact cleanPath_rooted_ne_empty p h
  · rw [if_neg h]
    exact cleanPath_rooted_ne_empty _ (isAbs_append (wd ++ "/") p (isAbs_append wd "/" hwd))

/-- `strings.Replace` is the identity when the pattern does not occur. -/
theorem goReplaceFirst_none (s old new : String)
    (h : findSubstr s.data old.data = none) : goReplaceFirst s old new = s := by
  unfold goReplaceFirst
  rw [h]

/-- Replacing slashes by slashes changes nothing. -/
theorem goReplaceAllChar_slash (s : String) : goReplaceAllChar s '/' '/' = s := by
  unfold goReplaceAllChar
  have hmap : s.data.map (fun ch => if ch = '/' then '/' else ch) = s.data := by
    induction s.data with
    | nil => rfl
    | cons c rest ih =>
      simp only [List.map_cons, ih]
      congr 1
      by_cases h : c = '/' <;> simp [h]
  rw [hmap]

/-- A substring match at position zero is a prefix match. -/
theorem findSubstr_zero (hay needle : List Char)
    (h : findSubstr hay needle = some 0) : needle.isPrefixOf hay = true := by
  cases hay with
  | nil =>
    unfold findSubstr at h
    by_cases hn : needle = []
    · subst hn; rfl
    · rw [if_neg hn] at h; cases h
  | cons c rest =>
    unfold findSubstr at h
    by_cases hp : needle.isPrefixOf (c :: rest) = true
    · exact hp
    · rw [if_neg hp] at h
      cases hf : findSubstr rest needle with
      | none => rw [hf] at h; cases h
      | some j => rw [hf] at h; simp at h

/-! ### Concrete artifacts used by the closed theorems -/

/-- A first sample listed resource. -/
def resA : Resource := ⟨"r1", 1, "image", 1, "", ""⟩

/-- A second sample listed resource. -/
def resB : Resource := ⟨"r2", 1, "image", 1, "", ""⟩

/-- A third sample listed resource. -/
def resC : Resource := ⟨"r3", 1, "image", 1, "", ""⟩

/-- A service handle as produced by `Dial` for cloud `mycloud`. -/
def plainService : Service :=
  ⟨"mycloud", "key", "sec", "https://api.cloudinary.com/v1_1/mycloud/image/upload/",
   .ImageType, "", "", false, false, none, false⟩

/-- The same service handle in dry-run mode (`Simulate(true)`). -/
def simService : Service :=
  ⟨"mycloud", "key", "sec", "https://api.cloudinary.com/v1_1/mycloud/image/upload/",
   .ImageType, "", "", false, true, none, false⟩

/-- An upload environment for a readable five-byte file, with no
    transport behind it. -/
def simUploadEnv : UploadEnv := ⟨"/w", "111", some 5, none, true, true, none⟩

/-- A rename environment whose transport would answer 200. -/
def renameEnv200 : RenameEnv := ⟨"111", some ⟨200, true, none⟩⟩

/-- A per-item deletion oracle that fails on public id `a` only. -/
def failOnA : String → Option String :=
  fun pid => if pid = "a" then some "boom" else none

/-! ### Claim C1: the Request Signer canonicalization -/

/-- C1: for every field mapping and secret, `Service.signature` returns
    the lowercase hex SHA-1 digest of the `&`-joined `key=value` pairs
    of all transmitted fields except `api_key`, keys sorted ascending,
    with the raw secret appended undelimited — while `api_key` itself
    is still written to the transmitted form fields. -/
theorem signature_matches_canonical (options : List (String × String))
    (apiKey apiSecret : String) (hnodup : (options.map (·.1)).Nodup) :
    (signature apiKey apiSecret options).1 =
      sha1hex (specSignedString (upsert options "api_key" apiKey) apiSecret) ∧
    ("api_key", apiKey) ∈ (signature apiKey apiSecret options).2 := by
  constructor
  · simp only [signature, specSignedString]
    rw [signedValues_eq, sortStrings_filter]
  · simp only [signature]
    apply List.mem_append_left
    have hk : "api_key" ∈ sortStrings ((upsert options "api_key" apiKey).map (·.1)) := by
      simp only [sortStrings, List.mem_insertionSort]
      exact mem_keys_upsert options "api_key" apiKey
    refine List.mem_map.mpr ⟨"api_key", hk, ?_⟩
    simp [lookupD_upsert]

/-- C1 witness: the theorem applied to a concrete two-field mapping. -/
theorem signature_matches_canonical_witness :
    (([("public_id", "css/default"), ("timestamp", "1234")].map
        (fun p => p.1)).Nodup) ∧
    ((signature "key123" "s3cr3t" [("public_id", "css/default"), ("timestamp", "1234")]).1 =
      sha1hex (specSignedString
        (upsert [("public_id", "css/default"), ("timestamp", "1234")] "api_key" "key123")
        "s3cr3t") ∧
     ("api_key", "key123") ∈
      (signature "key123" "s3cr3t" [("public_id", "css/default"), ("timestamp", "1234")]).2) :=
  ⟨by decide,
   signature_matches_canonical
     [("public_id", "css/default"), ("timestamp", "1234")] "key123" "s3cr3t" (by decide)⟩

/-! ### Claim C2: pagination of the resource listing -/

/-- C2: the struct tag `json: "next_cursor"` of `pagination.NextCursor`
    is malformed (space after the colon), so `encoding/json` falls back
    to the field name `NextCursor`, which the incoming key
    `next_cursor` does not match even case-insensitively; the decoded
    cursor is therefore always zero and `doGetResources` returns the
    first page only, issuing a single request, instead of aggregating
    the pages. -/
theorem doGetResources_stops_after_first_page :
    nextCursorEffectiveName = "NextCursor" ∧
    jsonKeyMatch "next_cursor" nextCursorEffectiveName = false ∧
    doGetResources [⟨[resA, resB], some 7⟩, ⟨[resC], none⟩] = ([resA, resB], 1) ∧
    (doGetResources [⟨[resA, resB], some 7⟩, ⟨[resC], none⟩]).1 ≠ [resA, resB, resC] := by
  exact ⟨by decide, by decide, by decide, by decide⟩

/-! ### Claim C3: dry-run behaviour of upload, delete and rename -/

/-- C3: with the dry-run flag set, `uploadFile` and `Delete` issue no
    HTTP request and return success, but `Rename` has no dry-run check
    and still issues its HTTP request. -/
theorem dryRun_rename_still_sends :
    (uploadFile simService simUploadEnv [] "/tmp/a.png" false false).requests = [] ∧
    (uploadFile simService simUploadEnv [] "/tmp/a.png" false false).result =
      .ok "/tmp/a.png" ∧
    (Delete simService ⟨"111", none⟩ [] "a" "" .ImageType).requests = [] ∧
    (Delete simService ⟨"111", none⟩ [] "a" "" .ImageType).result = .ok () ∧
    (Rename simService renameEnv200 "a" "b" "" .ImageType).requests.length = 1 := by
  exact ⟨rfl, rfl, rfl, rfl, rfl⟩

/-! ### Claim C4: the string hashed by `Rename` -/

/-- C4: `Rename` hashes `from_public_id=F&timestamp=T&to_public_id=Q`
    plus the secret where `F` and `T` are the transmitted values but
    `Q` is the stripped target id without the prepend path, while the
    transmitted `to_public_id` field carries the prepend path — so with
    a non-empty prepend the hashed string is not the canonicalization
    of the transmitted fields. -/
theorem rename_signs_unprepended_target :
    (Rename plainService renameEnv200 "a" "b" "p/" .ImageType).signedPart =
      "from_public_id=p/a&timestamp=111&to_public_id=bsec" ∧
    (Rename plainService renameEnv200 "a" "b" "p/" .ImageType).requests.map (·.fields) =
      [[("api_key", "key"), ("from_public_id", "p/a"), ("timestamp", "111"),
        ("to_public_id", "p/b"),
        ("signature", sha1hex "from_public_id=p/a&timestamp=111&to_public_id=bsec")]] ∧
    "from_public_id=p/a&timestamp=111&to_public_id=bsec" ≠
      "from_public_id=p/a&timestamp=111&to_public_id=p/bsec" := by
  exact ⟨rfl, rfl, by decide⟩

/-! ### Claim C8: resource types and URL path segments -/

/-- C8 counterexample: `pdfType` is the string "image", so the pdf and
    image resource types map to the same URL path segment and the same
    substituted upload URL, refuting injectivity over the four types. -/
theorem resourceType_segment_not_injective :
    resourceTypePathSegment .PdfType = resourceTypePathSegment .ImageType ∧
    ResourceType.PdfType ≠ ResourceType.ImageType ∧
    uploadURIFor plainService.uploadURI .PdfType =
      uploadURIFor plainService.uploadURI .ImageType := by
  exact ⟨rfl, by decide, by decide⟩

/-- C8 amended: the resource-type-to-path-segment mapping sends image
    and pdf both to "image", video to "video" and raw to "raw"; it is
    injective on image, video and raw, but pdf shares the image
    segment. -/
theorem resourceType_segment_mapping :
    resourceTypePathSegment .ImageType = "image" ∧
    resourceTypePathSegment .PdfType = "image" ∧
    resourceTypePathSegment .VideoType = "video" ∧
    resourceTypePathSegment .RawType = "raw" ∧
    resourceTypePathSegment .ImageType ≠ resourceTypePathSegment .VideoType ∧
    resourceTypePathSegment .ImageType ≠ resourceTypePathSegment .RawType ∧
    resourceTypePathSegment .VideoType ≠ resourceTypePathSegment .RawType := by
  exact ⟨rfl, rfl, rfl, rfl, by decide, by decide, by decide⟩

/-! ### Claim C5: `cleanAssetName` with an empty base path -/

/-- C5 counterexample: with an empty base path the function does not
    return the last two path segments; `filepath.Abs("")` resolves to
    the working directory, which (not occurring in the path) leaves
    every segment of the absolute path in the result, as the repository
    test expects: the result is `x/a/b/c`, not the `x/b/c` computed
    from the specification words. -/
theorem cleanAssetName_not_lastTwoSegments :
    cleanAssetName "/w" "/a/b/c.png" "" "/x" = some "x/a/b/c" ∧
    specLastTwoSegmentsName "/a/b/c.png" "/x" = "x/b/c" ∧
    cleanAssetName "/w" "/a/b/c.png" "" "/x" ≠
      some (specLastTwoSegmentsName "/a/b/c.png" "/x") := by
  exact ⟨by decide, by decide, by decide⟩

/-- C5 amended: with an empty base path argument, the base path
    resolves to the working directory; whenever that directory does not
    occur inside the absolute path, the returned name is the whole
    absolute path minus its leading separator, extension stripped,
    prefixed by the normalized prepend path — every path segment is
    kept, not just the last two. -/
theorem cleanAssetName_emptyBase (wd path prependPath : String)
    (hwd : isAbs wd = true)
    (h1 : findSubstr (filepathAbs wd (goTrimSpace path)).data
            (filepathAbs wd "").data = none)
    (h2 : (filepathAbs wd (goTrimSpace path)).data.head? = some '/') :
    cleanAssetName wd path "" prependPath =
      some (normalizePP (goTrimSpace prependPath) ++
        stripExtStr ⟨(filepathAbs wd (goTrimSpace path)).data.tail⟩) := by
  obtain ⟨t, ht⟩ := List.head?_eq_some_iff.mp h2
  have hb : filepathAbs wd "" ≠ "" := filepathAbs_ne_empty wd "" hwd
  simp only [cleanAssetName]
  rw [show goTrimSpace "" = "" from rfl]
  rw [if_neg hb]
  rw [goReplaceFirst_none _ _ _ h1]
  rw [ht]
  simp [goReplaceAllChar_slash]

/-- C5 witness: the amended theorem at the concrete working directory
    `/w` and the specification example inputs. -/
theorem cleanAssetName_emptyBase_witness :
    (isAbs "/w" = true) ∧
    cleanAssetName "/w" "/a/b/c.png" "" "/x" =
      some (normalizePP (goTrimSpace "/x") ++
        stripExtStr ⟨(filepathAbs "/w" (goTrimSpace "/a/b/c.png")).data.tail⟩) :=
  ⟨by decide,
   cleanAssetName_emptyBase "/w" "/a/b/c.png" "/x" (by decide) (by decide) (by decide)⟩

/-! ### Claim C6: determinism of `cleanAssetName` -/

/-- C6 counterexample: two invocations with identical arguments but
    different working directories give different results — the working
    directory, read through `filepath.Abs`, is ambient process state
    the result depends on when the base path is empty. -/
theorem cleanAssetName_ambient_dependence :
    cleanAssetName "/a" "/a/b/c.png" "" "" = some "b/c" ∧
    cleanAssetName "/w" "/a/b/c.png" "" "" = some "a/b/c" ∧
    cleanAssetName "/a" "/a/b/c.png" "" "" ≠ cleanAssetName "/w" "/a/b/c.png" "" "" := by
  exact ⟨by decide, by decide, by decide⟩

/-- C6 amended: the function is a deterministic function of its three
    arguments together with the working directory; when the trimmed
    path and the trimmed base path are both absolute, the working
    directory is ignored entirely, so any two invocations with
    identical arguments agree regardless of that ambient state. -/
theorem cleanAssetName_wd_independent (wd1 wd2 path basePath prependPath : String)
    (hp : isAbs (goTrimSpace path) = true)
    (hb : isAbs (goTrimSpace basePath) = true) :
    cleanAssetName wd1 path basePath prependPath =
      cleanAssetName wd2 path basePath prependPath := by
  simp only [cleanAssetName]
  rw [filepathAbs_rooted wd1 _ hp, filepathAbs_rooted wd2 _ hp,
      filepathAbs_rooted wd1 _ hb, filepathAbs_rooted wd2 _ hb]

/-- C6 witness: the amended theorem at two distinct working
    directories and the repository test inputs. -/
theorem cleanAssetName_wd_independent_witness :
    (isAbs (goTrimSpace "/tmp/css/default.css") = true) ∧
    cleanAssetName "/q" "/tmp/css/default.css" "/tmp/" "new" =
      cleanAssetName "/z" "/tmp/css/default.css" "/tmp/" "new" :=
  ⟨by decide,
   cleanAssetName_wd_independent "/q" "/z" "/tmp/css/default.css" "/tmp/" "new"
     (by decide) (by decide)⟩

/-! ### Claim C10: totality of `cleanAssetName` -/

/-- C10 counterexample: when the resolved path equals the resolved
    non-empty base path, `strings.Replace` leaves an empty `name` and
    the access `name[0]` panics with an index out of range. -/
theorem cleanAssetName_panics_on_equal_base :
    cleanAssetName "/w" "/a" "/a" "" = none := by decide

/-- C10 amended: for an absolute working directory, `cleanAssetName`
    returns a value (no out-of-bounds access) whenever the resolved
    path differs from the resolved base path; the extension slice and
    the prepend-path access are always in bounds, and the only
    out-of-bounds access is `name[0]` in the equal-path case refuted by
    the counterexample. -/
theorem cleanAssetName_total (wd path basePath prependPath : String)
    (hwd : isAbs wd = true)
    (hne : filepathAbs wd (goTrimSpace path) ≠ filepathAbs wd (goTrimSpace basePath)) :
    (cleanAssetName wd path basePath prependPath).isSome = true := by
  have hbne : filepathAbs wd (goTrimSpace basePath) ≠ "" :=
    filepathAbs_ne_empty wd _ hwd
  have hpne : filepathAbs wd (goTrimSpace path) ≠ "" :=
    filepathAbs_ne_empty wd _ hwd
  have hpd : (filepathAbs wd (goTrimSpace path)).data ≠ [] := by
    intro hnil
    exact hpne (str_eq_empty_of_data_nil _ hnil)
  simp only [cleanAssetName]
  rw [if_neg hbne]
  have hname : (goReplaceFirst (filepathAbs wd (goTrimSpace path))
      (filepathAbs wd (goTrimSpace basePath)) "").data ≠ [] := by
    cases hf : findSubstr (filepathAbs wd (goTrimSpace path)).data
        (filepathAbs wd (goTrimSpace basePath)).data with
    | none =>
      rw [goReplaceFirst_none _ _ _ hf]
      exact hpd
    | some i =>
      have hgr : goReplaceFirst (filepathAbs wd (goTrimSpace path))
          (filepathAbs wd (goTrimSpace basePath)) "" =
          ⟨(filepathAbs wd (goTrimSpace path)).data.take i ++ ("" : String).data ++
            (filepathAbs wd (goTrimSpace path)).data.drop
              (i + (filepathAbs wd (goTrimSpace basePath)).data.length)⟩ := by
        unfold goReplaceFirst
        rw [hf]
      intro hnil
      rw [hgr] at hnil
      have hnil' : (filepathAbs wd (goTrimSpace path)).data.take i ++
          ("" : String).data ++
          (filepathAbs wd (goTrimSpace path)).data.drop
            (i + (filepathAbs wd (goTrimSpace basePath)).data.length) = [] := hnil
      rw [show ("" : String).data = [] from rfl, List.append_nil] at hnil'
      obtain ⟨htke, hdrp⟩ := List.append_eq_nil.mp hnil'
      have hi : i = 0 := by
        rcases List.take_eq_nil_iff.mp htke with h0 | hcontra
        · exact h0
        · exact absurd hcontra hpd
      subst hi
      have hpre : (filepathAbs wd (goTrimSpace basePath)).data <+:
          (filepathAbs wd (goTrimSpace path)).data :=
        List.isPrefixOf_iff_prefix.mp (findSubstr_zero _ _ hf)
      have hlen : (filepathAbs wd (goTrimSpace path)).data.length ≤
          (filepathAbs wd (goTrimSpace basePath)).data.length := by
        have := List.drop_eq_nil_iff.mp hdrp
        omega
      have heq := hpre.eq_of_length (le_antisymm hpre.length_le hlen)
      apply hne
      have h1 := congrArg (fun l => (⟨l⟩ : String)) heq
      simpa using h1.symm
  cases hd : (goReplaceFirst (filepathAbs wd (goTrimSpace path))
      (filepathAbs wd (goTrimSpace basePath)) "").data with
  | nil => exact absurd hd hname
  | cons c rest => simp

/-- C10 witness: the amended theorem at concrete inputs where the
    resolved path and base path differ. -/
theorem cleanAssetName_total_witness :
    (filepathAbs "/w" (goTrimSpace "/a/b/c.png") ≠ filepathAbs "/w" (goTrimSpace "/a")) ∧
    (cleanAssetName "/w" "/a/b/c.png" "/a" "").isSome = true :=
  ⟨by decide, cleanAssetName_total "/w" "/a/b/c.png" "/a" "" (by decide) (by decide)⟩

/-! ### Claim C9: bulk deletion and the optional sink -/

/-- C9: with a sink, a failing per-item delete is reported and the
    remaining deletions continue; with no sink (`w == nil`), the error
    report calls `fmt.Fprintf` on the nil writer and panics, aborting
    the bulk operation before the remaining resources are attempted. -/
theorem dropAll_nil_sink_panics :
    dropAllResources [.ok ⟨["a", "b"], none⟩] false failOnA = ⟨.crash, ["a"], []⟩ ∧
    dropAllResources [.ok ⟨["a", "b"], none⟩] true failOnA =
      ⟨.ok (), ["a", "b"],
       ["Deleting a ... ", "Error: a: boom", "Deleting b ... "]⟩ := by
  exact ⟨rfl, rfl⟩

/-! ### Claim C7: the change tracker inside `uploadFile` -/

/-- Updating a present key replaces one record in place: the key list
    is unchanged and the key now holds the new document. -/
theorem storeUpdate_mem (store : List UploadRecord) (doc r : UploadRecord)
    (hr : r ∈ store) (hid : doc.id = r.id) :
    ∃ l1, storeUpdate store r.id doc = some l1 ∧
      l1.map (·.id) = store.map (·.id) ∧
      l1.find? (fun x => x.id == r.id) = some doc := by
  induction store with
  | nil => cases hr
  | cons a rest ih =>
    by_cases h : (a.id == r.id) = true
    · refine ⟨doc :: rest, ?_, ?_, ?_⟩
      · simp [storeUpdate, h]
      · simp [hid, eq_of_beq h]
      · simp [List.find?, hid]
    · have hr' : r ∈ rest := by
        cases hr with
        | head => simp at h
        | tail _ hmem => exact hmem
      obtain ⟨l1, hu, hmap, hfind⟩ := ih hr'
      refine ⟨a :: l1, ?_, ?_, ?_⟩
      · simp [storeUpdate, h, hu]
      · simp [hmap]
      · simp [List.find?, h, hfind]

/-- C7: with the tracker configured and a record stored under the
    public id (or the public id plus extension), `uploadFile` skips —
    success, no request, no store write — when the current checksum
    equals the stored one; when it differs, the upload proceeds and a
    successful response updates the existing record in place under the
    same key (no insert), so the store keeps exactly one record per
    public id and the stored checksum becomes the current one. -/
theorem uploadFile_tracker (s : Service) (env : UploadEnv)
    (store : List UploadRecord) (fullPath pid chk : String) (r : UploadRecord)
    (hdb : s.dbConfigured = true)
    (hstat : env.statSize ≠ some 0)
    (hpid : cleanAssetName env.wd fullPath s.basePathDir s.prependPath = some pid)
    (hfind : store.find? (fun x => x.id == pid || x.id == pid ++ extOf fullPath) =
      some r)
    (hchk : env.fileChk = some chk) :
    (chk = r.checksum →
      ∀ dataGiven randomPublicId,
        uploadFile s env store fullPath dataGiven randomPublicId =
          ⟨.ok fullPath, [], store⟩) ∧
    (chk ≠ r.checksum →
      ∀ dataGiven randomPublicId resp,
        s.simulate = false →
        (dataGiven = true → env.dataOk = true) →
        (dataGiven = false → env.openOk = true) →
        env.httpResult = some resp →
        resp.status = 200 → resp.decodeOk = true → resp.publicId = r.id →
        (uploadFile s env store fullPath dataGiven randomPublicId).result =
          .ok resp.publicId ∧
        (uploadFile s env store fullPath dataGiven randomPublicId).requests.length = 1 ∧
        (uploadFile s env store fullPath dataGiven randomPublicId).store.map (·.id) =
          store.map (·.id) ∧
        (uploadFile s env store fullPath dataGiven randomPublicId).store.find?
            (fun x => x.id == r.id) =
          some ⟨resp.publicId, resp.publicId, resp.version, resp.format,
                resp.resourceType, resp.size, chk⟩) := by
  have htr : uploadCheckTracker s env store fullPath =
      (if chk = r.checksum then .early ⟨.ok fullPath, [], store⟩
       else .proceed true) := by
    simp only [uploadCheckTracker, hdb, hpid, hfind, hchk, if_true]
  constructor
  · intro hc dataGiven randomPublicId
    simp only [uploadFile, if_neg hstat, htr, if_pos hc]
  · intro hc dataGiven randomPublicId resp hsim hdata hopen hhttp hst hdec hrespid
    have hrmem : r ∈ store := List.mem_of_find?_eq_some hfind
    have hfile1 : (dataGiven && !env.dataOk) = false := by
      cases dataGiven
      · rfl
      · rw [hdata rfl]; rfl
    have hfile2 : (!dataGiven && !env.openOk) = false := by
      cases dataGiven
      · rw [hopen rfl]; rfl
      · rfl
    have hpm : ∃ pm, (if randomPublicId then some none
        else (cleanAssetName env.wd fullPath s.basePathDir s.prependPath).map some) =
          some pm := by
      cases randomPublicId
      · exact ⟨some pid, by simp [hpid]⟩
      · exact ⟨none, by simp⟩
    obtain ⟨pm, hpmv⟩ := hpm
    obtain ⟨l1, hu, hmap, hfind'⟩ :=
      storeUpdate_mem store
        ⟨resp.publicId, resp.publicId, resp.version, resp.format,
         resp.resourceType, resp.size, chk⟩ r hrmem hrespid
    have hout : uploadFile s env store fullPath dataGiven randomPublicId =
        ⟨.ok resp.publicId,
         [⟨uploadURIFor s.uploadURI s.uploadResType, uploadFields s env pm⟩],
         l1⟩ := by
      have hu' := hu
      rw [hrespid] at hu'
      simp only [uploadFile, if_neg hstat, htr, if_neg hc]
      simp [uploadSend, hpmv, hfile1, hfile2, hsim, hhttp, hst, hdec, hdb,
        hchk, hrespid, hu']
    rw [hout]
    exact ⟨rfl, rfl, hmap, hfind'⟩

/-- C7 witness: the theorem at a concrete service, store and
    environment (record present under `css/default`). -/
theorem uploadFile_tracker_witness :
    ((⟨"/w", "111", some 5, some "newchk", true, true,
        some ⟨200, true, "css/default", 2, "png", "image", 5⟩⟩ : UploadEnv).fileChk =
      some "newchk") ∧
    ((("newchk" : String) = ("oldchk" : String) →
      ∀ dataGiven randomPublicId,
        uploadFile
          ⟨"mycloud", "key", "sec",
           "https://api.cloudinary.com/v1_1/mycloud/image/upload/",
           .ImageType, "/tmp", "", false, false, none, true⟩
          ⟨"/w", "111", some 5, some "newchk", true, true,
           some ⟨200, true, "css/default", 2, "png", "image", 5⟩⟩
          [⟨"css/default", "css/default", 1, "png", "image", 5, "oldchk"⟩]
          "/tmp/css/default.css" dataGiven randomPublicId =
          ⟨.ok "/tmp/css/default.css", [],
           [⟨"css/default", "css/default", 1, "png", "image", 5, "oldchk"⟩]⟩) ∧
     (("newchk" : String) ≠ ("oldchk" : String) →
      ∀ dataGiven randomPublicId resp,
        (⟨"mycloud", "key", "sec",
          "https://api.cloudinary.com/v1_1/mycloud/image/upload/",
          .ImageType, "/tmp", "", false, false, none, true⟩ : Service).simulate = false →
        (dataGiven = true →
          (⟨"/w", "111", some 5, some "newchk", true, true,
            some ⟨200, true, "css/default", 2, "png", "image", 5⟩⟩ : UploadEnv).dataOk = true) →
        (dataGiven = false →
          (⟨"/w", "111", some 5, some "newchk", true, true,
            some ⟨200, true, "css/default", 2, "png", "image", 5⟩⟩ : UploadEnv).openOk = true) →
        (⟨"/w", "111", some 5, some "newchk", true, true,
          some ⟨200, true, "css/default", 2, "png", "image", 5⟩⟩ : UploadEnv).httpResult =
          some resp →
        resp.status = 200 → resp.decodeOk = true →
        resp.publicId =
          (⟨"css/default", "css/default", 1, "png", "image", 5, "oldchk"⟩ : UploadRecord).id →
        (uploadFile
            ⟨"mycloud", "key", "sec",
             "https://api.cloudinary.com/v1_1/mycloud/image/upload/",
             .ImageType, "/tmp", "", false, false, none, true⟩
            ⟨"/w", "111", some 5, some "newchk", true, true,
             some ⟨200, true, "css/default", 2, "png", "image", 5⟩⟩
            [⟨"css/default", "css/default", 1, "png", "image", 5, "oldchk"⟩]
            "/tmp/css/default.css" dataGiven randomPublicId).result =
          .ok resp.publicId ∧
        (uploadFile
            ⟨"mycloud", "key", "sec",
             "https://api.cloudinary.com/v1_1/mycloud/image/upload/",
             .ImageType, "/tmp", "", false, false, none, true⟩
            ⟨"/w", "111", some 5, some "newchk", true, true,
             some ⟨200, true, "css/default", 2, "png", "image", 5⟩⟩
            [⟨"css/default", "css/default", 1, "png", "image", 5, "oldchk"⟩]
            "/tmp/css/default.css" dataGiven randomPublicId).requests.length = 1 ∧
        (uploadFile
            ⟨"mycloud", "key", "sec",
             "https://api.cloudinary.com/v1_1/mycloud/image/upload/",
             .ImageType, "/tmp", "", false, false, none, true⟩
            ⟨"/w", "111", some 5, some "newchk", true, true,
             some ⟨200, true, "css/default", 2, "png", "image", 5⟩⟩
            [⟨"css/default", "css/default", 1, "png", "image", 5, "oldchk"⟩]
            "/tmp/css/default.css" dataGiven randomPublicId).store.map (·.id) =
          [⟨"css/default", "css/default", 1, "png", "image", 5, "oldchk"⟩].map
            (fun x : UploadRecord => x.id) ∧
        (uploadFile
            ⟨"mycloud", "key", "sec",
             "https://api.cloudinary.com/v1_1/mycloud/image/upload/",
             .ImageType, "/tmp", "", false, false, none, true⟩
            ⟨"/w", "111", some 5, some "newchk", true, true,
             some ⟨200, true, "css/default", 2, "png", "image", 5⟩⟩
            [⟨"css/default", "css/default", 1, "png", "image", 5, "oldchk"⟩]
            "/tmp/css/default.css" dataGiven randomPublicId).store.find?
            (fun x => x.id ==
              (⟨"css/default", "css/default", 1, "png", "image", 5, "oldchk"⟩ : UploadRecord).id) =
          some ⟨resp.publicId, resp.publicId, resp.version, resp.format,
                resp.resourceType, resp.size, "newchk"⟩)) :=
  ⟨by decide,
   uploadFile_tracker
     ⟨"mycloud", "key", "sec",
      "https://api.cloudinary.com/v1_1/mycloud/image/upload/",
      .ImageType, "/tmp", "", false, false, none, true⟩
     ⟨"/w", "111", some 5, some "newchk", true, true,
      some ⟨200, true, "css/default", 2, "png", "image", 5⟩⟩
     [⟨"css/default", "css/default", 1, "png", "image", 5, "oldchk"⟩]
     "/tmp/css/default.css" "css/default" "newchk"
     ⟨"css/default", "css/default", 1, "png", "image", 5, "oldchk"⟩
     (by decide) (by decide) (by decide) (by decide) (by decide)⟩

end Cloudinary
